import Mathlib

/-!
Verification development for the GlazeWM IPC client (`src/dist/index.js`).

The client is embedded shallowly:

* JSON values delivered by the transport are modelled by `JsVal`; JavaScript
  truthiness by `truthy`; field access / assignment on object literals by
  `getFieldL` / `setField`.
* The mutable state of one `WmClient` instance together with the ambient
  runtime (the set of armed `setTimeout` timers and the listeners attached to
  the current WebSocket) is the structure `ClientState`.
* Each external stimulus the event loop can process (a call to `sendRequest`,
  an inbound frame, a timer firing, `disconnect()`, an unsolicited close,
  a connect attempt finishing) is a constructor of `Ev`; `step` executes the
  corresponding handler code synchronously, exactly as the single-threaded
  event loop does.  `runEvents` folds a whole trace from the freshly
  connected state.
* Settlements of the per-request promise (`resolve` / `reject` calls) are
  recorded in an append-only log `invocations`, so exactly-once properties
  are statements about this log.
* The event dispatcher (`subscribe` / `unsubscribe` / `emitEvent`) is
  modelled separately over an insertion-ordered association list mirroring
  the JavaScript `Map<WmEventType, EventHandler[]>`; handlers are identified
  by numbers (reference identity) and a handler that throws is modelled by a
  predicate `throws`, the caught exceptions being returned in a second
  component rather than propagated.
-/

/-- A JavaScript value produced by `JSON.parse` (numbers restricted to
integers; none of the modelled code paths does non-integral arithmetic). -/
inductive JsVal where
  | null
  | bool (b : Bool)
  | num (n : Int)
  | str (s : String)
  | arr (elems : List JsVal)
  | obj (fields : List (String × JsVal))

/-- JavaScript truthiness of a value (absent fields are modelled by `.null`,
which is falsy exactly like `undefined`). -/
def truthy : JsVal → Bool
  | .null => false
  | .bool b => b
  | .num n => n != 0
  | .str s => s != ""
  | .arr _ => true
  | .obj _ => true

/-- Field lookup on an object's field list (first match). -/
def getFieldL : List (String × JsVal) → String → Option JsVal
  | [], _ => none
  | (k', v') :: rest, k => if k' = k then some v' else getFieldL rest k

/-- Field lookup on a value: `o.k`, `none` when the field is absent or the
value is not an object. -/
def getField : JsVal → String → Option JsVal
  | .obj fs, k => getFieldL fs k
  | _, _ => none

/-- `o.k` with JavaScript's `undefined` (falsy) for absent fields. -/
def jsGetD (j : JsVal) (k : String) : JsVal :=
  (getField j k).getD .null

/-- Property assignment on an object's field list: overwrites the value in
place when the key exists (keeping its position, as JavaScript does), appends
otherwise. -/
def setField : List (String × JsVal) → String → JsVal → List (String × JsVal)
  | [], k, v => [(k, v)]
  | (k', v') :: rest, k, v =>
      if k' = k then (k', v) :: rest else (k', v') :: setField rest k v

mutual
/-- `String(x)`, as used by `new Error(x)` for the rejection message. -/
def jsToDisplayString : JsVal → String
  | .null => "null"
  | .bool b => if b then "true" else "false"
  | .num n => toString n
  | .str s => s
  | .arr xs => String.intercalate "," (jsListStrings xs)
  | .obj _ => "[object Object]"

/-- Display strings of the elements of an array, for `Array.toString`. -/
def jsListStrings : List JsVal → List String
  | [] => []
  | x :: xs => jsToDisplayString x :: jsListStrings xs
end

/-- Own enumerable properties contributed by `{...data}` (objects spread
their fields, arrays and strings spread index properties, primitives none). -/
def spreadProps : JsVal → List (String × JsVal)
  | .obj fs => fs
  | .arr xs => (List.range xs.length).zip xs |>.map (fun p => (toString p.1, p.2))
  | .str s => (List.range s.length).zip (s.toList.map (fun c => JsVal.str c.toString))
      |>.map (fun p => (toString p.1, p.2))
  | _ => []

/-- The event object built by `emitEvent`:
`{ type: kind, timestamp: now, ...data }` — the spread comes last, so the
payload's own fields overwrite the two dispatcher-supplied ones. -/
def buildEvent (kind : String) (now : Int) (data : JsVal) : List (String × JsVal) :=
  (spreadProps data).foldl (fun o kv => setField o kv.1 kv.2)
    [("type", JsVal.str kind), ("timestamp", JsVal.num now)]

/-- One recorded settlement of a request's promise: which callback
`sendRequest`'s machinery invoked, and with what payload. -/
inductive Settlement where
  | resolvedData (v : Option JsVal)
  | resolvedRaw (s : String)
  | rejectedCommandFailed (msg : String)
  | rejectedTimeout (msg : String)
  | rejectedClosed (msg : String)

/-- A settlement counts as a failure iff it invokes the reject callback. -/
def Settlement.isFailure : Settlement → Bool
  | .resolvedData _ => false
  | .resolvedRaw _ => false
  | .rejectedCommandFailed _ => true
  | .rejectedTimeout _ => true
  | .rejectedClosed _ => true

/-- An inbound text frame, as seen through `JSON.parse`: either its parse
result, or the raw text when parsing throws. -/
inductive Frame where
  | parsed (j : JsVal)
  | malformed (raw : String)

/-- Message of `new Error(response.error || "Command failed")`. -/
def cmdFailMsg (j : JsVal) : String :=
  match getField j "error" with
  | some e => if truthy e then jsToDisplayString e else "Command failed"
  | none => "Command failed"

/-- How `handleResponse` settles the awaiting promise for a frame:
parse success resolves `response.data` when `response.success` is truthy and
rejects otherwise; parse failure resolves with the raw text. -/
def respSettle : Frame → Settlement
  | .parsed j =>
      if truthy (jsGetD j "success") then .resolvedData (getField j "data")
      else .rejectedCommandFailed (cmdFailMsg j)
  | .malformed raw => .resolvedRaw raw

/-- `handleMessage`'s classification: `message.type && message.data`
(JavaScript truthiness of both fields). -/
def isEventMessage (j : JsVal) : Bool :=
  truthy (jsGetD j "type") && truthy (jsGetD j "data")

/-- State of one client plus the runtime pieces its code manipulates. -/
structure ClientState where
  /-- `this.ws !== null` -/
  hasWs : Bool
  /-- the current WebSocket (if any) is open, so it can still deliver frames -/
  wsOpen : Bool
  /-- `this.connected` -/
  connected : Bool
  /-- `this.messageId` -/
  messageId : Nat
  /-- `this.pendingRequests`: request id together with its command text -/
  pending : List (Nat × String)
  /-- armed `setTimeout` timers of requests (id, closed-over command text) -/
  timers : List (Nat × String)
  /-- per-request `handleResponse` listeners attached to the current ws,
  in attach order -/
  listeners : List Nat
  /-- append-only log of promise settlements `(requestId, settlement)` -/
  invocations : List (Nat × Settlement)
  /-- text frames handed to `ws.send` -/
  sentFrames : List String
  /-- `(message.type, message.data)` pairs forwarded to `emitEvent` -/
  eventsDispatched : List (JsVal × JsVal)
  /-- `this.options.timeout` -/
  timeoutMs : Nat

/-- `sendRequest(command)`: throws `"Not connected to GlazeWM IPC"` when
`!this.ws || !this.connected`; otherwise takes a fresh id, arms the timer,
registers the pending entry, attaches the response listener and sends the
command text. -/
def sendRequest (s : ClientState) (cmd : String) : ClientState × Except String Nat :=
  if s.hasWs && s.connected then
    ({ s with
        messageId := s.messageId + 1
        pending := s.pending ++ [(s.messageId, cmd)]
        timers := s.timers ++ [(s.messageId, cmd)]
        listeners := s.listeners ++ [s.messageId]
        sentFrames := s.sentFrames ++ [cmd] }, .ok s.messageId)
  else (s, .error "Not connected to GlazeWM IPC")

/-- `queryMonitors()` sends `"query monitors"`. -/
def queryMonitors (s : ClientState) : ClientState × Except String Nat :=
  sendRequest s "query monitors"

/-- `queryWorkspaces()` sends `"query workspaces"`. -/
def queryWorkspaces (s : ClientState) : ClientState × Except String Nat :=
  sendRequest s "query workspaces"

/-- `queryWindows()` sends `"query windows"`. -/
def queryWindows (s : ClientState) : ClientState × Except String Nat :=
  sendRequest s "query windows"

/-- `queryFocused()` sends `"query focused"`. -/
def queryFocused (s : ClientState) : ClientState × Except String Nat :=
  sendRequest s "query focused"

/-- `runCommand(command, subject?)`: the subject participates only when
truthy (a present but empty subject string is falsy in JavaScript). -/
def runCommand (s : ClientState) (command : String) (subject : Option String) :
    ClientState × Except String Nat :=
  sendRequest s
    (match subject with
     | some sub => if sub != "" then "command --id " ++ sub ++ " " ++ command
                   else "command " ++ command
     | none => "command " ++ command)

/-- The body of `handleResponse` for request `id` on frame `f`: detach the
listener (when a ws exists), clear the timer and delete the table entry when
the id is still pending, then settle the promise. -/
def runHandler (f : Frame) (s : ClientState) (id : Nat) : ClientState :=
  { s with
      listeners := if s.hasWs then s.listeners.erase id else s.listeners
      timers := if s.pending.any (fun p => decide (p.1 = id))
                then s.timers.filter (fun t => decide (t.1 ≠ id)) else s.timers
      pending := if s.pending.any (fun p => decide (p.1 = id))
                 then s.pending.filter (fun p => decide (p.1 ≠ id)) else s.pending
      invocations := s.invocations ++ [(id, respSettle f)] }

/-- `handleMessage`: parse the frame and forward it to `emitEvent` exactly
when `message.type && message.data`; anything else (including parse failure)
is only logged. -/
def handleMsg (s : ClientState) (f : Frame) : ClientState :=
  match f with
  | .parsed j =>
      if isEventMessage j then
        { s with eventsDispatched := s.eventsDispatched ++ [(jsGetD j "type", jsGetD j "data")] }
      else s
  | .malformed _ => s

/-- Message text of the request-timeout rejection. -/
def timeoutMsg (t : Nat) (cmd : String) : String :=
  "Request timeout after " ++ toString t ++ "ms: " ++ cmd

/-- `cleanupPendingRequests()`: clear every pending entry's timer, reject it
with `"Connection closed"`, then clear the table. -/
def cleanup (s : ClientState) : ClientState :=
  { s with
      timers := s.timers.filter (fun t => s.pending.all (fun p => decide (p.1 ≠ t.1)))
      invocations := s.invocations ++
        s.pending.map (fun p => (p.1, Settlement.rejectedClosed "Connection closed"))
      pending := [] }

/-- External stimuli processed by the event loop. -/
inductive Ev where
  /-- a caller invokes `sendRequest cmd` (directly or via a query wrapper) -/
  | send (cmd : String)
  /-- the open WebSocket delivers a text frame -/
  | message (f : Frame)
  /-- the armed request timer keyed `id` fires -/
  | timerFire (id : Nat)
  /-- the caller invokes `disconnect()` -/
  | disconnect
  /-- the WebSocket emits an unsolicited `close` -/
  | wsClose
  /-- a `connect()` attempt receives the `open` notification -/
  | connectOpen
  /-- a `connect()` attempt fails (error or connect timeout) -/
  | connectFail

/-- One synchronous turn of the event loop. -/
def step (s : ClientState) : Ev → ClientState
  | .send cmd => (sendRequest s cmd).1
  | .message f =>
      if s.hasWs && s.wsOpen then
        let s1 := handleMsg s f
        s1.listeners.foldl (runHandler f) s1
      else s
  | .timerFire id =>
      match s.timers.find? (fun t => decide (t.1 = id)) with
      | none => s
      | some tc =>
          { s with
              listeners := if s.hasWs then s.listeners.erase id else s.listeners
              timers := s.timers.filter (fun t => decide (t.1 ≠ id))
              pending := s.pending.filter (fun p => decide (p.1 ≠ id))
              invocations := s.invocations ++
                [(id, Settlement.rejectedTimeout (timeoutMsg s.timeoutMs tc.2))] }
  | .disconnect =>
      cleanup { s with
                  hasWs := false
                  wsOpen := if s.hasWs then false else s.wsOpen
                  connected := if s.hasWs then false else s.connected }
  | .wsClose =>
      if s.hasWs && s.wsOpen then cleanup { s with wsOpen := false, connected := false }
      else s
  | .connectOpen =>
      if s.connected && s.hasWs then s
      else { s with hasWs := true, wsOpen := true, connected := true, listeners := [] }
  | .connectFail =>
      if s.connected && s.hasWs then s
      else { s with hasWs := true, wsOpen := false, connected := false, listeners := [] }

/-- The state of a freshly constructed client whose `connect()` has
succeeded, with configured request timeout `t`. -/
def initState (t : Nat) : ClientState :=
  { hasWs := true, wsOpen := true, connected := true, messageId := 0,
    pending := [], timers := [], listeners := [], invocations := [],
    sentFrames := [], eventsDispatched := [], timeoutMs := t }

/-- Execute a trace of stimuli from the freshly connected state. -/
def runEvents (t : Nat) (evs : List Ev) : ClientState :=
  evs.foldl step (initState t)

/-- Number of settlements recorded for request `id`. -/
def settleCount (s : ClientState) (id : Nat) : Nat :=
  (s.invocations.filter (fun e => decide (e.1 = id))).length

/-- Ids currently in the pending-request table. -/
def pendingIds (s : ClientState) : List Nat :=
  s.pending.map Prod.fst

/-- The `eventSubscriptions` map: insertion-ordered association list from
event kind to the ordered handler list; handlers are identified by numbers
(standing for JavaScript reference identity). -/
def Subs := List (String × List Nat)

/-- The handler list stored for a kind (empty when the key is absent). -/
def handlersOf (subs : Subs) (kind : String) : List Nat :=
  match subs.find? (fun e => decide (e.1 = kind)) with
  | some e => e.2
  | none => []

/-- Whether the map has the key (`eventSubscriptions.has`). -/
def hasKind (subs : Subs) (kind : String) : Bool :=
  subs.any (fun e => decide (e.1 = kind))

/-- `Map.set`: overwrite the value of an existing key in place, append a new
key at the end (JavaScript `Map`s preserve key insertion order). -/
def setHandlers : Subs → String → List Nat → Subs
  | [], k, l => [(k, l)]
  | (k', l') :: rest, k, l =>
      if k' = k then (k', l) :: rest else (k', l') :: setHandlers rest k l

/-- `subscribe(eventType, handler)`: create the list if absent, then push the
handler; net effect is appending to the (possibly empty) stored list. -/
def subscribe (subs : Subs) (kind : String) (h : Nat) : Subs :=
  setHandlers subs kind (handlersOf subs kind ++ [h])

/-- `unsubscribe(eventType, handler)`: when the kind has a list and
`indexOf` finds the handler, splice out the first occurrence; otherwise leave
the map untouched. -/
def unsubscribe (subs : Subs) (kind : String) (h : Nat) : Subs :=
  match subs.find? (fun e => decide (e.1 = kind)) with
  | none => subs
  | some e => if h ∈ e.2 then setHandlers subs kind (e.2.erase h) else subs

/-- `unsubscribeAll()` clears the whole map. -/
def unsubscribeAll (_ : Subs) : Subs := []

/-- `emitEvent(eventType, data)`: when the kind has a non-empty handler list,
build the event object once and invoke every handler on it in list order,
each invocation wrapped in `try`/`catch`.  The result is the ordered list of
performed invocations together with the list of handlers whose exception was
caught and logged; `throws h` says whether handler `h` raises.  `emitEvent`
is total: no handler exception escapes the dispatch. -/
def emitEvent (subs : Subs) (throws : Nat → Bool) (kind : String) (data : JsVal)
    (now : Int) : List (Nat × List (String × JsVal)) × List Nat :=
  let hs := handlersOf subs kind
  if hs.length > 0 then
    let ev := buildEvent kind now data
    (hs.map (fun h => (h, ev)), hs.filter throws)
  else ([], [])

/-- Settlement count over a raw log. -/
def cntLog (l : List (Nat × Settlement)) (id : Nat) : Nat :=
  (l.filter (fun e => decide (e.1 = id))).length

theorem settleCount_eq_cntLog (s : ClientState) (id : Nat) :
    settleCount s id = cntLog s.invocations id := rfl

theorem cntLog_nil (id : Nat) : cntLog [] id = 0 := rfl

theorem cntLog_append (l₁ l₂ : List (Nat × Settlement)) (id : Nat) :
    cntLog (l₁ ++ l₂) id = cntLog l₁ id + cntLog l₂ id := by
  simp [cntLog, List.filter_append]

theorem cntLog_cons (j : Nat) (x : Settlement) (l : List (Nat × Settlement)) (id : Nat) :
    cntLog ((j, x) :: l) id = (if j = id then 1 else 0) + cntLog l id := by
  by_cases h : j = id <;> simp [cntLog, List.filter_cons, h, Nat.add_comm]

theorem cntLog_map (g : Nat → Settlement) (L : List Nat) (hL : L.Nodup) (id : Nat) :
    cntLog (L.map (fun i => (i, g i))) id = if id ∈ L then 1 else 0 := by
  induction L with
  | nil => simp [cntLog_nil]
  | cons a L ih =>
      rcases List.nodup_cons.mp hL with ⟨ha, hL'⟩
      by_cases h : a = id
      · subst h
        simp [cntLog_cons, ih hL', ha]
      · simp only [List.map_cons, cntLog_cons, ih hL', List.mem_cons]
        by_cases h2 : id ∈ L <;> simp [h, h2, Ne.symm h]

theorem cntLog_map_const (x : Settlement) (L : List Nat) (hL : L.Nodup) (id : Nat) :
    cntLog (L.map (fun i => (i, x))) id = if id ∈ L then 1 else 0 := by
  induction L with
  | nil => simp [cntLog_nil]
  | cons a L ih =>
      rcases List.nodup_cons.mp hL with ⟨ha, hL2⟩
      by_cases h : a = id
      · subst h
        simp [cntLog_cons, ih hL2, ha]
      · simp only [List.map_cons, cntLog_cons, ih hL2, List.mem_cons]
        by_cases h2 : id ∈ L <;> simp [h, h2, Ne.symm h]

theorem find?_fst_eq (l : List (Nat × String)) (id : Nat) (c : String)
    (hnd : (l.map Prod.fst).Nodup) (hm : (id, c) ∈ l) :
    l.find? (fun t => decide (t.1 = id)) = some (id, c) := by
  induction l with
  | nil => cases hm
  | cons a l ih =>
      rcases List.mem_cons.mp hm with h | h
      · subst h
        simp [List.find?_cons]
      · have hne : a.1 ≠ id := by
          intro he
          have : id ∈ l.map Prod.fst := List.mem_map.mpr ⟨(id, c), h, rfl⟩
          rw [List.map_cons, List.nodup_cons] at hnd
          exact hnd.1 (he ▸ this)
        have := ih (by rw [List.map_cons, List.nodup_cons] at hnd; exact hnd.2) h
        simpa [List.find?_cons, hne] using this

theorem mem_map_fst_filter (l : List (Nat × String)) (q : Nat → Bool) (i : Nat) :
    (i ∈ (l.filter (fun p => q p.1)).map Prod.fst) ↔
      (i ∈ l.map Prod.fst ∧ q i = true) := by
  constructor
  · intro h
    rcases List.mem_map.mp h with ⟨p, hp, hpi⟩
    rcases List.mem_filter.mp hp with ⟨hpl, hq⟩
    subst hpi
    exact ⟨List.mem_map.mpr ⟨p, hpl, rfl⟩, hq⟩
  · rintro ⟨h, hq⟩
    rcases List.mem_map.mp h with ⟨p, hp, hpi⟩
    subst hpi
    exact List.mem_map.mpr ⟨p, List.mem_filter.mpr ⟨hp, hq⟩, rfl⟩

theorem nodup_map_fst_filter (l : List (Nat × String)) (q : (Nat × String) → Bool)
    (h : (l.map Prod.fst).Nodup) : ((l.filter q).map Prod.fst).Nodup :=
  ((List.filter_sublist (p := q) l).map Prod.fst).nodup h

theorem runHandler_eq (f : Frame) (s : ClientState) (id : Nat)
    (hws : s.hasWs = true) (hp : id ∈ pendingIds s) :
    runHandler f s id =
      { s with
          listeners := s.listeners.erase id
          timers := s.timers.filter (fun t => decide (t.1 ≠ id))
          pending := s.pending.filter (fun p => decide (p.1 ≠ id))
          invocations := s.invocations ++ [(id, respSettle f)] } := by
  have hany : s.pending.any (fun p => decide (p.1 = id)) = true := by
    rcases List.mem_map.mp hp with ⟨p, hpmem, hpi⟩
    exact List.any_eq_true.mpr ⟨p, hpmem, by simp [hpi]⟩
  simp [runHandler, hws, hany]

theorem filter_key_cons {α : Type} (key : α → Nat) (l : List α) (a : Nat) (L : List Nat) :
    (l.filter (fun x => decide (key x ≠ a))).filter (fun x => decide (key x ∉ L))
      = l.filter (fun x => decide (key x ∉ a :: L)) := by
  rw [List.filter_filter]
  apply List.filter_congr
  intro x _
  by_cases h1 : key x = a <;> by_cases h2 : key x ∈ L <;> simp [h1, h2]

theorem foldl_runHandler_spec (f : Frame) :
    ∀ (L : List Nat) (s : ClientState), s.hasWs = true →
      s.listeners.Nodup → (∀ id ∈ L, id ∈ pendingIds s) → L.Nodup →
      (L.foldl (runHandler f) s).hasWs = s.hasWs ∧
      (L.foldl (runHandler f) s).wsOpen = s.wsOpen ∧
      (L.foldl (runHandler f) s).connected = s.connected ∧
      (L.foldl (runHandler f) s).messageId = s.messageId ∧
      (L.foldl (runHandler f) s).sentFrames = s.sentFrames ∧
      (L.foldl (runHandler f) s).eventsDispatched = s.eventsDispatched ∧
      (L.foldl (runHandler f) s).timeoutMs = s.timeoutMs ∧
      (L.foldl (runHandler f) s).pending = s.pending.filter (fun p => decide (p.1 ∉ L)) ∧
      (L.foldl (runHandler f) s).timers = s.timers.filter (fun t => decide (t.1 ∉ L)) ∧
      (L.foldl (runHandler f) s).listeners = s.listeners.filter (fun i => decide (i ∉ L)) ∧
      (L.foldl (runHandler f) s).invocations
        = s.invocations ++ L.map (fun i => (i, respSettle f)) := by
  intro L
  induction L with
  | nil =>
      intro s _ _ _ _
      simp
  | cons a L ih =>
      intro s hws hlnd hsub hLnd
      have hamem : a ∈ pendingIds s := hsub a (List.mem_cons_self a L)
      have haL : a ∉ L := (List.nodup_cons.mp hLnd).1
      have hLnd2 : L.Nodup := (List.nodup_cons.mp hLnd).2
      rw [List.foldl_cons, runHandler_eq f s a hws hamem]
      set s2 := { s with
          listeners := s.listeners.erase a
          timers := s.timers.filter (fun t => decide (t.1 ≠ a))
          pending := s.pending.filter (fun p => decide (p.1 ≠ a))
          invocations := s.invocations ++ [(a, respSettle f)] } with hs2
      have hws2 : s2.hasWs = true := hws
      have hlnd3 : s2.listeners.Nodup := hlnd.erase a
      have hsub2 : ∀ id ∈ L, id ∈ pendingIds s2 := by
        intro id hid
        have hidnea : id ≠ a := fun h => haL (h ▸ hid)
        show id ∈ (s.pending.filter (fun p => decide (p.1 ≠ a))).map Prod.fst
        exact (mem_map_fst_filter s.pending (fun i => decide (i ≠ a)) id).mpr
          ⟨hsub id (List.mem_cons_of_mem a hid), by simp [hidnea]⟩
      obtain ⟨h1, h2, h3, h4, h5, h6, h7, hpend, htim, hlis, hinv⟩ :=
        ih s2 hws2 hlnd3 hsub2 hLnd2
      refine ⟨h1, h2, h3, h4, h5, h6, h7, ?_, ?_, ?_, ?_⟩
      · rw [hpend]
        exact filter_key_cons Prod.fst s.pending a L
      · rw [htim]
        exact filter_key_cons Prod.fst s.timers a L
      · rw [hlis]
        have herase : s2.listeners = s.listeners.filter (fun i => decide (i ≠ a)) := by
          rw [show s2.listeners = s.listeners.erase a from rfl, hlnd.erase_eq_filter a]
          apply List.filter_congr
          intro x _
          by_cases h : x = a <;> simp [h]
        rw [herase]
        exact filter_key_cons (fun i => i) s.listeners a L
      · rw [hinv, hs2]
        simp

/-- The inductive invariant of the client machine, connecting the
pending-request table, the armed timers, the attached response listeners and
the settlement log. -/
structure ClientInv (s : ClientState) : Prop where
  /-- the armed timers are exactly the pending entries -/
  te : s.timers = s.pending
  /-- the table never holds two entries per id -/
  nd : (s.pending.map Prod.fst).Nodup
  /-- every pending id was issued by the counter -/
  plt : ∀ p ∈ s.pending, p.1 < s.messageId
  /-- each request attaches its listener once -/
  lnd : s.listeners.Nodup
  /-- while the socket is open, the attached per-request listeners are
  exactly the pending ids -/
  lp : s.wsOpen = true → ∀ i : Nat, (i ∈ s.listeners ↔ i ∈ pendingIds s)
  /-- an open socket exists -/
  wh : s.wsOpen = true → s.hasWs = true
  /-- a connected client has an open socket -/
  cw : s.connected = true → s.hasWs = true ∧ s.wsOpen = true
  /-- pending work only exists while connected -/
  pc : s.pending ≠ [] → s.connected = true
  /-- the log holds exactly one settlement for every issued id that left the
  table, none for ids still pending or never issued -/
  ic : ∀ i : Nat, cntLog s.invocations i
        = if i < s.messageId ∧ i ∉ pendingIds s then 1 else 0

theorem mem_pendingIds_lt (s : ClientState) (h : ClientInv s) :
    ∀ i ∈ pendingIds s, i < s.messageId := by
  intro i hi
  rcases List.mem_map.mp hi with ⟨p, hp, hpi⟩
  exact hpi ▸ h.plt p hp

theorem inv_initState (t : Nat) : ClientInv (initState t) := by
  constructor <;> simp [initState, pendingIds, cntLog]

theorem inv_send (s : ClientState) (cmd : String) (h : ClientInv s) :
    ClientInv (step s (.send cmd)) := by
  show ClientInv (sendRequest s cmd).1
  unfold sendRequest
  by_cases hg : (s.hasWs && s.connected) = true
  · have hconn : s.connected = true := (Bool.and_eq_true_iff.mp hg).2
    have hop : s.wsOpen = true := (h.cw hconn).2
    have hmnew : s.messageId ∉ pendingIds s := by
      intro hmem
      exact absurd (mem_pendingIds_lt s h _ hmem) (lt_irrefl _)
    have hmlis : s.messageId ∉ s.listeners := by
      intro hmem
      exact hmnew ((h.lp hop _).mp hmem)
    rw [if_pos hg]
    constructor
    · show s.timers ++ _ = s.pending ++ _
      rw [h.te]
    · show ((s.pending ++ [(s.messageId, cmd)]).map Prod.fst).Nodup
      rw [List.map_append]
      simp only [List.map_cons, List.map_nil]
      rw [List.nodup_append]
      exact ⟨h.nd, List.nodup_singleton _, by
        intro x hx hx2
        rw [List.mem_singleton] at hx2
        exact hmnew (hx2 ▸ hx)⟩
    · intro p hp
      rcases List.mem_append.mp hp with hp | hp
      · exact Nat.lt_succ_of_lt (h.plt p hp)
      · rw [List.mem_singleton] at hp
        rw [hp]
        exact Nat.lt_succ_self _
    · show (s.listeners ++ [s.messageId]).Nodup
      rw [List.nodup_append]
      exact ⟨h.lnd, List.nodup_singleton _, by
        intro x hx hx2
        rw [List.mem_singleton] at hx2
        exact hmlis (hx2 ▸ hx)⟩
    · intro hop2 i
      show i ∈ s.listeners ++ [s.messageId] ↔
        i ∈ (s.pending ++ [(s.messageId, cmd)]).map Prod.fst
      rw [List.map_append, List.mem_append, List.mem_append, h.lp hop i]
      simp [pendingIds]
    · intro _
      exact (Bool.and_eq_true_iff.mp hg).1
    · intro _
      exact ⟨(Bool.and_eq_true_iff.mp hg).1, hop⟩
    · intro _
      exact hconn
    · intro i
      show cntLog s.invocations i
        = if i < s.messageId + 1 ∧
            i ∉ (s.pending ++ [(s.messageId, cmd)]).map Prod.fst then 1 else 0
      rw [h.ic i]
      have hmem : (i ∈ (s.pending ++ [(s.messageId, cmd)]).map Prod.fst) ↔
          (i ∈ pendingIds s ∨ i = s.messageId) := by
        rw [List.map_append]
        simp [pendingIds]
      by_cases him : i ∈ pendingIds s
      · have hlt : i < s.messageId := mem_pendingIds_lt s h i him
        rw [if_neg (by tauto), if_neg (by
          intro hc
          exact hc.2 (hmem.mpr (Or.inl him)))]
      · by_cases hieq : i = s.messageId
        · rw [if_neg (by
            intro hc
            exact absurd (hieq ▸ hc.1) (lt_irrefl _)), if_neg (by
            intro hc
            exact hc.2 (hmem.mpr (Or.inr hieq)))]
        · have : (i < s.messageId ∧ i ∉ pendingIds s) ↔
              (i < s.messageId + 1 ∧
                ¬i ∈ (s.pending ++ [(s.messageId, cmd)]).map Prod.fst) := by
            rw [hmem]
            constructor
            · rintro ⟨hlt, _⟩
              exact ⟨Nat.lt_succ_of_lt hlt, by tauto⟩
            · rintro ⟨hlt, _⟩
              refine ⟨?_, him⟩
              omega
          exact if_congr this rfl rfl
  · rw [if_neg hg]
    exact h

theorem cnt_combine (mId : Nat) (pids : List Nat) (hlt : ∀ i ∈ pids, i < mId) (i : Nat) :
    (if i < mId ∧ i ∉ pids then 1 else 0) + (if i ∈ pids then 1 else 0)
      = if i < mId then 1 else 0 := by
  by_cases him : i ∈ pids
  · simp [him, hlt i him]
  · simp [him]

theorem inv_timerFire (s : ClientState) (id : Nat) (h : ClientInv s) :
    ClientInv (step s (.timerFire id)) := by
  cases hfind : s.timers.find? (fun t => decide (t.1 = id)) with
  | none =>
      have hs : step s (.timerFire id) = s := by
        simp only [step]
        rw [hfind]
      rw [hs]
      exact h
  | some tc =>
      have htcid : tc.1 = id := by
        have := List.find?_some hfind
        simpa using this
      have htmem : tc ∈ s.timers := List.mem_of_find?_eq_some hfind
      have hpmem : tc ∈ s.pending := h.te ▸ htmem
      have hpid : id ∈ pendingIds s := List.mem_map.mpr ⟨tc, hpmem, htcid⟩
      have hconn : s.connected = true := h.pc (by
        intro hnil
        rw [hnil] at hpmem
        cases hpmem)
      have hws : s.hasWs = true := (h.cw hconn).1
      have hop : s.wsOpen = true := (h.cw hconn).2
      have hidlt : id < s.messageId := mem_pendingIds_lt s h id hpid
      have hs : step s (.timerFire id) =
          { s with
              listeners := s.listeners.erase id
              timers := s.timers.filter (fun t => decide (t.1 ≠ id))
              pending := s.pending.filter (fun p => decide (p.1 ≠ id))
              invocations := s.invocations ++
                [(id, Settlement.rejectedTimeout (timeoutMsg s.timeoutMs tc.2))] } := by
        simp only [step]
        rw [hfind]
        simp [hws]
      rw [hs]
      constructor
      · show s.timers.filter _ = s.pending.filter _
        rw [h.te]
      · exact nodup_map_fst_filter s.pending _ h.nd
      · intro p hp
        exact h.plt p (List.mem_filter.mp hp).1
      · exact h.lnd.erase id
      · intro _ i
        show i ∈ s.listeners.erase id ↔
          i ∈ (s.pending.filter (fun p => decide (p.1 ≠ id))).map Prod.fst
        rw [h.lnd.mem_erase_iff, mem_map_fst_filter s.pending (fun i => decide (i ≠ id)) i,
          h.lp hop i]
        constructor
        · rintro ⟨hne, hmem⟩
          exact ⟨hmem, by simp [hne]⟩
        · rintro ⟨hmem, hne⟩
          refine ⟨?_, hmem⟩
          simpa using hne
      · intro _
        exact hws
      · intro _
        exact ⟨hws, hop⟩
      · intro _
        exact hconn
      · intro i
        show cntLog (s.invocations ++
            [(id, Settlement.rejectedTimeout (timeoutMsg s.timeoutMs tc.2))]) i
          = if i < s.messageId ∧
              i ∉ (s.pending.filter (fun p => decide (p.1 ≠ id))).map Prod.fst
            then 1 else 0
        rw [cntLog_append, cntLog_cons, cntLog_nil, h.ic i]
        have hnewmem : (i ∈ (s.pending.filter (fun p => decide (p.1 ≠ id))).map Prod.fst)
            ↔ (i ∈ pendingIds s ∧ i ≠ id) := by
          rw [mem_map_fst_filter s.pending (fun i => decide (i ≠ id)) i]
          simp only [decide_eq_true_eq]
          exact Iff.rfl
        by_cases hii : i = id
        · subst hii
          rw [if_neg (by tauto), if_pos rfl, if_pos ⟨hidlt, by
            rw [hnewmem]
            tauto⟩]
        · have hiff : (i < s.messageId ∧ i ∉ pendingIds s) ↔
              (i < s.messageId ∧
                i ∉ (s.pending.filter (fun p => decide (p.1 ≠ id))).map Prod.fst) := by
            rw [hnewmem]
            tauto
          rw [if_congr hiff rfl rfl, if_neg (Ne.symm hii)]
          simp

theorem handleMsg_same (s : ClientState) (f : Frame) :
    (handleMsg s f).hasWs = s.hasWs ∧ (handleMsg s f).wsOpen = s.wsOpen ∧
    (handleMsg s f).connected = s.connected ∧ (handleMsg s f).messageId = s.messageId ∧
    (handleMsg s f).pending = s.pending ∧ (handleMsg s f).timers = s.timers ∧
    (handleMsg s f).listeners = s.listeners ∧ (handleMsg s f).invocations = s.invocations ∧
    (handleMsg s f).sentFrames = s.sentFrames ∧ (handleMsg s f).timeoutMs = s.timeoutMs := by
  cases f with
  | parsed j => by_cases hj : isEventMessage j = true <;> simp [handleMsg, hj]
  | malformed raw => simp [handleMsg]

theorem step_message_spec (s : ClientState) (f : Frame) (h : ClientInv s)
    (hws : s.hasWs = true) (hop : s.wsOpen = true) :
    (step s (.message f)).pending = [] ∧
    (step s (.message f)).timers = [] ∧
    (step s (.message f)).listeners = [] ∧
    (step s (.message f)).invocations
      = s.invocations ++ s.listeners.map (fun i => (i, respSettle f)) ∧
    (step s (.message f)).hasWs = s.hasWs ∧
    (step s (.message f)).wsOpen = s.wsOpen ∧
    (step s (.message f)).connected = s.connected ∧
    (step s (.message f)).messageId = s.messageId ∧
    (step s (.message f)).sentFrames = s.sentFrames ∧
    (step s (.message f)).timeoutMs = s.timeoutMs ∧
    (step s (.message f)).eventsDispatched = (handleMsg s f).eventsDispatched := by
  have hg : (s.hasWs && s.wsOpen) = true := by
    rw [hws, hop]
    rfl
  have hstep : step s (.message f)
      = (handleMsg s f).listeners.foldl (runHandler f) (handleMsg s f) := by
    show (if s.hasWs && s.wsOpen then
        (handleMsg s f).listeners.foldl (runHandler f) (handleMsg s f) else s) = _
    rw [if_pos hg]
  obtain ⟨e1, e2, e3, e4, e5, e6, e7, e8, e9, e10⟩ := handleMsg_same s f
  obtain ⟨g1, g2, g3, g4, g5, g6, g7, gpend, gtim, glis, ginv⟩ :=
    foldl_runHandler_spec f (handleMsg s f).listeners (handleMsg s f)
      (by rw [e1, hws])
      (by rw [e7]; exact h.lnd)
      (by
        intro i hi
        rw [e7] at hi
        show i ∈ (handleMsg s f).pending.map Prod.fst
        rw [e5]
        exact (h.lp hop i).mp hi)
      (by rw [e7]; exact h.lnd)
  rw [hstep]
  have hLP : ∀ i : Nat, i ∈ s.listeners ↔ i ∈ pendingIds s := h.lp hop
  have hnil : s.pending.filter (fun p => decide (p.1 ∉ s.listeners)) = [] := by
    rw [List.filter_eq_nil_iff]
    intro p hp
    simp only [decide_eq_true_eq, Decidable.not_not]
    exact (hLP p.1).mpr (List.mem_map.mpr ⟨p, hp, rfl⟩)
  have hlisnil : s.listeners.filter (fun i => decide (i ∉ s.listeners)) = [] := by
    rw [List.filter_eq_nil_iff]
    intro a ha
    simp [ha]
  refine ⟨?_, ?_, ?_, ?_, ?_, ?_, ?_, ?_, ?_, ?_, ?_⟩
  · rw [gpend, e5, e7]
    exact hnil
  · rw [gtim, e6, e7, h.te]
    exact hnil
  · rw [glis, e7]
    exact hlisnil
  · rw [ginv, e8, e7]
  · rw [g1, e1]
  · rw [g2, e2]
  · rw [g3, e3]
  · rw [g4, e4]
  · rw [g5, e9]
  · rw [g7, e10]
  · exact g6

theorem inv_message (s : ClientState) (f : Frame) (h : ClientInv s) :
    ClientInv (step s (.message f)) := by
  by_cases hg : (s.hasWs && s.wsOpen) = true
  · have hws : s.hasWs = true := (Bool.and_eq_true_iff.mp hg).1
    have hop : s.wsOpen = true := (Bool.and_eq_true_iff.mp hg).2
    obtain ⟨mpend, mtim, mlis, minv, m1, m2, m3, m4, m5, m6, m7⟩ :=
      step_message_spec s f h hws hop
    constructor
    · rw [mpend, mtim]
    · rw [mpend]
      simp [pendingIds]
    · intro p hp
      rw [mpend] at hp
      cases hp
    · rw [mlis]
      exact List.nodup_nil
    · intro _ i
      rw [mlis]
      show i ∈ ([] : List Nat) ↔ i ∈ (step s (.message f)).pending.map Prod.fst
      rw [mpend]
      simp
    · intro hop2
      rw [m1]
      exact hws
    · intro hc2
      rw [m1, m2]
      rw [m3] at hc2
      exact h.cw hc2
    · intro hne
      rw [mpend] at hne
      exact absurd rfl hne
    · intro i
      rw [minv, m4, cntLog_append]
      have hmap : s.listeners.map (fun i => (i, respSettle f))
          = s.listeners.map (fun i => (i, (fun _ : Nat => respSettle f) i)) := rfl
      rw [hmap, cntLog_map _ _ h.lnd, h.ic i]
      have hpemp : pendingIds (step s (.message f)) = [] := by
        show (step s (.message f)).pending.map Prod.fst = []
        rw [mpend]
        rfl
      rw [hpemp]
      have hiff : ∀ j : Nat, (j ∈ s.listeners) ↔ j ∈ pendingIds s := h.lp hop
      rw [if_congr (hiff i) rfl rfl]
      have := cnt_combine s.messageId (pendingIds s) (mem_pendingIds_lt s h) i
      rw [this]
      simp
  · have hs : step s (.message f) = s := by
      show (if s.hasWs && s.wsOpen then _ else s) = s
      rw [if_neg hg]
    rw [hs]
    exact h

theorem cleanup_timers_nil (s : ClientState) (hte : s.timers = s.pending) :
    (cleanup s).timers = [] := by
  show s.timers.filter _ = []
  rw [hte, List.filter_eq_nil_iff]
  intro t ht
  simp only [List.all_eq_true, decide_eq_true_eq]
  intro hall
  exact (hall t ht) rfl

theorem cleanup_cnt (s : ClientState) (hnd : (s.pending.map Prod.fst).Nodup) (i : Nat) :
    cntLog (cleanup s).invocations i
      = cntLog s.invocations i + (if i ∈ pendingIds s then 1 else 0) := by
  show cntLog (s.invocations ++
      s.pending.map (fun p => (p.1, Settlement.rejectedClosed "Connection closed"))) i = _
  rw [cntLog_append]
  congr 1
  have hnd2 : (pendingIds s).Nodup := hnd
  have hmm : s.pending.map (fun p => (p.1, Settlement.rejectedClosed "Connection closed"))
      = (pendingIds s).map
          (fun j => (j, Settlement.rejectedClosed "Connection closed")) := by
    show _ = (s.pending.map Prod.fst).map _
    rw [List.map_map]
    rfl
  rw [hmm, cntLog_map_const _ _ hnd2]

theorem inv_disconnect (s : ClientState) (h : ClientInv s) :
    ClientInv (step s .disconnect) := by
  set s2 := { s with
      hasWs := false
      wsOpen := if s.hasWs then false else s.wsOpen
      connected := if s.hasWs then false else s.connected } with hs2
  have hstep : step s .disconnect = cleanup s2 := rfl
  rw [hstep]
  have hwsop : (cleanup s2).wsOpen = (if s.hasWs then false else s.wsOpen) := rfl
  have hcon : (cleanup s2).connected = (if s.hasWs then false else s.connected) := rfl
  have hopfalse : ¬((cleanup s2).wsOpen = true) := by
    intro hop2
    rw [hwsop] at hop2
    by_cases hws : s.hasWs = true
    · rw [if_pos hws] at hop2
      exact absurd hop2 (by decide)
    · rw [if_neg hws] at hop2
      exact hws (h.wh hop2)
  constructor
  · rw [cleanup_timers_nil s2 h.te]
    rfl
  · show (([] : List (Nat × String)).map Prod.fst).Nodup
    simp
  · intro p hp
    cases hp
  · exact h.lnd
  · intro hop2
    exact absurd hop2 hopfalse
  · intro hop2
    exact absurd hop2 hopfalse
  · intro hc2
    rw [hcon] at hc2
    by_cases hws : s.hasWs = true
    · rw [if_pos hws] at hc2
      exact absurd hc2 (by decide)
    · rw [if_neg hws] at hc2
      exact absurd ((h.cw hc2).1) hws
  · intro hne
    exact absurd rfl hne
  · intro i
    rw [cleanup_cnt s2 h.nd i]
    have hp2 : pendingIds s2 = pendingIds s := rfl
    rw [hp2, h.ic i, cnt_combine s.messageId (pendingIds s) (mem_pendingIds_lt s h) i]
    have hemp : pendingIds (cleanup s2) = [] := rfl
    rw [hemp]
    have hmid : (cleanup s2).messageId = s.messageId := rfl
    rw [hmid]
    simp

theorem inv_wsClose (s : ClientState) (h : ClientInv s) :
    ClientInv (step s .wsClose) := by
  by_cases hg : (s.hasWs && s.wsOpen) = true
  · set s2 := { s with wsOpen := false, connected := false } with hs2
    have hstep : step s .wsClose = cleanup s2 := by
      show (if s.hasWs && s.wsOpen then cleanup s2 else s) = cleanup s2
      rw [if_pos hg]
    rw [hstep]
    constructor
    · rw [cleanup_timers_nil s2 h.te]
      rfl
    · show (([] : List (Nat × String)).map Prod.fst).Nodup
      simp
    · intro p hp
      cases hp
    · exact h.lnd
    · intro hop2
      exact Bool.noConfusion hop2
    · intro hop2
      exact Bool.noConfusion hop2
    · intro hc2
      exact Bool.noConfusion hc2
    · intro hne
      exact absurd rfl hne
    · intro i
      rw [cleanup_cnt s2 h.nd i]
      have hp2 : pendingIds s2 = pendingIds s := rfl
      rw [hp2, h.ic i, cnt_combine s.messageId (pendingIds s) (mem_pendingIds_lt s h) i]
      have hemp : pendingIds (cleanup s2) = [] := rfl
      rw [hemp]
      have hmid : (cleanup s2).messageId = s.messageId := rfl
      rw [hmid]
      simp
  · have hstep : step s .wsClose = s := by
      show (if s.hasWs && s.wsOpen then _ else s) = s
      rw [if_neg hg]
    rw [hstep]
    exact h

theorem inv_connectOpen (s : ClientState) (h : ClientInv s) :
    ClientInv (step s .connectOpen) := by
  by_cases hg : (s.connected && s.hasWs) = true
  · have hstep : step s .connectOpen = s := by
      show (if s.connected && s.hasWs then s else _) = s
      rw [if_pos hg]
    rw [hstep]
    exact h
  · have hstep : step s .connectOpen
        = { s with hasWs := true, wsOpen := true, connected := true, listeners := [] } := by
      show (if s.connected && s.hasWs then s else _) = _
      rw [if_neg hg]
    have hpnil : s.pending = [] := by
      by_contra hne
      have hc := h.pc hne
      have hw := (h.cw hc).1
      exact hg (by simp [hc, hw])
    rw [hstep]
    constructor
    · exact h.te
    · exact h.nd
    · exact h.plt
    · exact List.nodup_nil
    · intro _ i
      show i ∈ ([] : List Nat) ↔ i ∈ s.pending.map Prod.fst
      rw [hpnil]
      simp
    · intro _
      rfl
    · intro _
      exact ⟨rfl, rfl⟩
    · intro _
      rfl
    · intro i
      exact h.ic i

theorem inv_connectFail (s : ClientState) (h : ClientInv s) :
    ClientInv (step s .connectFail) := by
  by_cases hg : (s.connected && s.hasWs) = true
  · have hstep : step s .connectFail = s := by
      show (if s.connected && s.hasWs then s else _) = s
      rw [if_pos hg]
    rw [hstep]
    exact h
  · have hstep : step s .connectFail
        = { s with hasWs := true, wsOpen := false, connected := false, listeners := [] } := by
      show (if s.connected && s.hasWs then s else _) = _
      rw [if_neg hg]
    have hpnil : s.pending = [] := by
      by_contra hne
      have hc := h.pc hne
      have hw := (h.cw hc).1
      exact hg (by simp [hc, hw])
    rw [hstep]
    constructor
    · exact h.te
    · exact h.nd
    · exact h.plt
    · exact List.nodup_nil
    · intro hop2
      exact Bool.noConfusion hop2
    · intro hop2
      exact Bool.noConfusion hop2
    · intro hc2
      exact Bool.noConfusion hc2
    · intro hne
      exact absurd hpnil hne
    · intro i
      exact h.ic i

theorem inv_step (s : ClientState) (e : Ev) (h : ClientInv s) : ClientInv (step s e) := by
  cases e with
  | send cmd => exact inv_send s cmd h
  | message f => exact inv_message s f h
  | timerFire id => exact inv_timerFire s id h
  | disconnect => exact inv_disconnect s h
  | wsClose => exact inv_wsClose s h
  | connectOpen => exact inv_connectOpen s h
  | connectFail => exact inv_connectFail s h

theorem inv_foldl (evs : List Ev) : ∀ s, ClientInv s → ClientInv (evs.foldl step s) := by
  induction evs with
  | nil =>
      intro s h
      exact h
  | cons e evs ih =>
      intro s h
      exact ih _ (inv_step s e h)

theorem inv_runEvents (t : Nat) (evs : List Ev) : ClientInv (runEvents t evs) :=
  inv_foldl evs _ (inv_initState t)

theorem emitEvent_fst (subs : Subs) (throws : Nat → Bool) (kind : String)
    (data : JsVal) (now : Int) :
    (emitEvent subs throws kind data now).1
      = (handlersOf subs kind).map (fun h => (h, buildEvent kind now data)) := by
  cases hh : handlersOf subs kind with
  | nil => simp [emitEvent, hh]
  | cons a l => simp [emitEvent, hh]

theorem emitEvent_snd (subs : Subs) (throws : Nat → Bool) (kind : String)
    (data : JsVal) (now : Int) :
    (emitEvent subs throws kind data now).2 = (handlersOf subs kind).filter throws := by
  cases hh : handlersOf subs kind with
  | nil => simp [emitEvent, hh]
  | cons a l => simp [emitEvent, hh]

theorem find?_setHandlers (subs : Subs) (k : String) (l : List Nat) :
    (setHandlers subs k l).find? (fun e => decide (e.1 = k)) = some (k, l) := by
  induction subs with
  | nil => simp [setHandlers, List.find?]
  | cons e rest ih =>
      obtain ⟨k', l'⟩ := e
      by_cases hk : k' = k
      · subst hk
        simp [setHandlers, List.find?]
      · rw [show setHandlers ((k', l') :: rest) k l
            = (k', l') :: setHandlers rest k l from by simp [setHandlers, hk]]
        rw [List.find?_cons_of_neg _ (by simp [hk]), ih]

theorem handlersOf_setHandlers (subs : Subs) (k : String) (l : List Nat) :
    handlersOf (setHandlers subs k l) k = l := by
  rw [handlersOf, find?_setHandlers]

theorem handlersOf_subscribe (subs : Subs) (kind : String) (h : Nat) :
    handlersOf (subscribe subs kind h) kind = handlersOf subs kind ++ [h] := by
  rw [subscribe, handlersOf_setHandlers]

theorem getFieldL_eq_none_of_not_mem (l : List (String × JsVal)) (k : String)
    (h : k ∉ l.map Prod.fst) : getFieldL l k = none := by
  induction l with
  | nil => rfl
  | cons e rest ih =>
      obtain ⟨k', v'⟩ := e
      have hne : k' ≠ k := by
        intro he
        exact h (by simp [he])
      rw [show getFieldL ((k', v') :: rest) k = getFieldL rest k from by
        simp [getFieldL, hne]]
      exact ih (fun hm => h (by simp [hm]))

theorem getFieldL_setField_self (o : List (String × JsVal)) (k : String) (v : JsVal) :
    getFieldL (setField o k v) k = some v := by
  induction o with
  | nil => simp [setField, getFieldL]
  | cons e rest ih =>
      obtain ⟨k', v'⟩ := e
      by_cases hk : k' = k
      · subst hk
        simp [setField, getFieldL]
      · simp [setField, getFieldL, hk, ih]

theorem getFieldL_setField_other (o : List (String × JsVal)) (kS kG : String)
    (v : JsVal) (hne : kS ≠ kG) : getFieldL (setField o kS v) kG = getFieldL o kG := by
  induction o with
  | nil => simp [setField, getFieldL, hne]
  | cons e rest ih =>
      obtain ⟨k', v'⟩ := e
      by_cases hk : k' = kS
      · subst hk
        simp [setField, getFieldL, hne]
      · by_cases hg : k' = kG
        · subst hg
          simp [setField, getFieldL, hk]
        · simp [setField, getFieldL, hk, hg, ih]

theorem getFieldL_foldl_setField (fs : List (String × JsVal)) :
    ∀ (base : List (String × JsVal)) (k : String), (fs.map Prod.fst).Nodup →
      getFieldL (fs.foldl (fun o kv => setField o kv.1 kv.2) base) k
        = (match getFieldL fs k with
           | some v => some v
           | none => getFieldL base k) := by
  induction fs with
  | nil =>
      intro base k _
      simp [getFieldL]
  | cons e rest ih =>
      intro base k hnd
      obtain ⟨k0, v0⟩ := e
      rw [List.map_cons, List.nodup_cons] at hnd
      rw [List.foldl_cons, ih (setField base k0 v0) k hnd.2]
      by_cases hk : k0 = k
      · subst hk
        have hrest : getFieldL rest k0 = none :=
          getFieldL_eq_none_of_not_mem rest k0 hnd.1
        rw [hrest]
        rw [show getFieldL ((k0, v0) :: rest) k0 = some v0 from by simp [getFieldL]]
        exact getFieldL_setField_self base k0 v0
      · rw [show getFieldL ((k0, v0) :: rest) k = getFieldL rest k from by
          simp [getFieldL, hk]]
        cases hr : getFieldL rest k with
        | some v => rfl
        | none => exact getFieldL_setField_other base k0 k v0 hk

theorem truthy_jsGetD_iff (j : JsVal) (k : String) :
    truthy (jsGetD j k) = true ↔ ∃ v, getField j k = some v ∧ truthy v = true := by
  cases hx : getField j k with
  | none => simp [jsGetD, hx, truthy]
  | some v => simp [jsGetD, hx]

theorem runHandler_eventsDispatched (f : Frame) (s : ClientState) (id : Nat) :
    (runHandler f s id).eventsDispatched = s.eventsDispatched := rfl

theorem foldl_runHandler_eventsDispatched (f : Frame) (L : List Nat) :
    ∀ s : ClientState, (L.foldl (runHandler f) s).eventsDispatched = s.eventsDispatched := by
  induction L with
  | nil =>
      intro s
      rfl
  | cons a L ih =>
      intro s
      rw [List.foldl_cons, ih (runHandler f s a), runHandler_eventsDispatched]

theorem listeners_eq_singleton (s : ClientState) (h : ClientInv s) (rid : Nat)
    (cmd : String) (hp : s.pending = [(rid, cmd)]) (hop : s.wsOpen = true) :
    s.listeners = [rid] := by
  have hiff := h.lp hop
  have hpids : pendingIds s = [rid] := by
    show s.pending.map Prod.fst = [rid]
    rw [hp]
    rfl
  have hmem : rid ∈ s.listeners := (hiff rid).mpr (by
    rw [hpids]
    exact List.mem_singleton_self rid)
  have hall : ∀ b ∈ s.listeners, b = rid := by
    intro b hb
    have hbm := (hiff b).mp hb
    rw [hpids] at hbm
    exact List.mem_singleton.mp hbm
  cases hl : s.listeners with
  | nil =>
      rw [hl] at hmem
      cases hmem
  | cons a l2 =>
      have ha : a = rid := hall a (by rw [hl]; exact List.mem_cons_self a l2)
      have hl2 : l2 = [] := by
        cases hl2c : l2 with
        | nil => rfl
        | cons c l3 =>
            have hc : c = rid := hall c (by rw [hl, hl2c]; simp)
            have hnd := h.lnd
            rw [hl, hl2c] at hnd
            rcases List.nodup_cons.mp hnd with ⟨hna, _⟩
            exact absurd (by rw [ha, hc]; simp : a ∈ c :: l3) hna
      rw [ha, hl2]

theorem single_pending_message (s : ClientState) (h : ClientInv s) (rid : Nat)
    (cmd : String) (f : Frame) (hp : s.pending = [(rid, cmd)]) :
    (step s (.message f)).pending = []
    ∧ (step s (.message f)).invocations = s.invocations ++ [(rid, respSettle f)] := by
  have hconn : s.connected = true := h.pc (by rw [hp]; simp)
  have hws := (h.cw hconn).1
  have hop := (h.cw hconn).2
  obtain ⟨mpend, _, _, minv, _⟩ := step_message_spec s f h hws hop
  have hlis := listeners_eq_singleton s h rid cmd hp hop
  refine ⟨mpend, ?_⟩
  rw [minv, hlis]
  rfl

theorem ClientState.extEq {a b : ClientState}
    (h1 : a.hasWs = b.hasWs) (h2 : a.wsOpen = b.wsOpen) (h3 : a.connected = b.connected)
    (h4 : a.messageId = b.messageId) (h5 : a.pending = b.pending)
    (h6 : a.timers = b.timers) (h7 : a.listeners = b.listeners)
    (h8 : a.invocations = b.invocations) (h9 : a.sentFrames = b.sentFrames)
    (h10 : a.eventsDispatched = b.eventsDispatched) (h11 : a.timeoutMs = b.timeoutMs) :
    a = b := by
  cases a
  cases b
  simp_all

theorem step_disconnect_idle (x : ClientState) (hws : x.hasWs = false)
    (hpend : x.pending = []) : step x .disconnect = x := by
  apply ClientState.extEq <;> simp [step, cleanup, hws, hpend]

/-- **C1** — exactly-once settlement for every registered request.  In every
reachable state of the client machine and for every request id the counter
has issued: the settlement log holds at most one entry for the id; while the
id is still in the pending table it has no settlement yet and its timeout
timer is still armed (a settling transition stays enabled, so the request
cannot end up with zero outcomes); once it has left the table it has exactly
one settlement.  Since this holds along every trace — including traces where
a response frame arrives after the id's timeout fired — a late response is a
silent no-op and never invokes the request's callbacks a second time. -/
theorem c1_pending_request_exactly_once :
    ∀ (t : Nat) (evs : List Ev) (id : Nat), id < (runEvents t evs).messageId →
      settleCount (runEvents t evs) id ≤ 1
      ∧ (id ∈ pendingIds (runEvents t evs) →
          settleCount (runEvents t evs) id = 0
          ∧ id ∈ (runEvents t evs).timers.map Prod.fst)
      ∧ (id ∉ pendingIds (runEvents t evs) →
          settleCount (runEvents t evs) id = 1) := by
  intro t evs id hid
  have h := inv_runEvents t evs
  have hic := h.ic id
  rw [settleCount_eq_cntLog]
  refine ⟨?_, ?_, ?_⟩
  · rw [hic]
    split <;> omega
  · intro hin
    refine ⟨by rw [hic, if_neg (by tauto)], ?_⟩
    rw [h.te]
    exact hin
  · intro hout
    rw [hic, if_pos ⟨hid, hout⟩]

theorem c1_pending_request_exactly_once_witness :
    0 < (runEvents 50 [.send "query monitors", .timerFire 0,
        .message (.parsed (.obj [("success", .bool true), ("data", .num 7)]))]).messageId
    ∧ (settleCount (runEvents 50 [.send "query monitors", .timerFire 0,
          .message (.parsed (.obj [("success", .bool true), ("data", .num 7)]))]) 0 ≤ 1
       ∧ (0 ∈ pendingIds (runEvents 50 [.send "query monitors", .timerFire 0,
            .message (.parsed (.obj [("success", .bool true), ("data", .num 7)]))]) →
           settleCount (runEvents 50 [.send "query monitors", .timerFire 0,
              .message (.parsed (.obj [("success", .bool true), ("data", .num 7)]))]) 0 = 0
           ∧ 0 ∈ (runEvents 50 [.send "query monitors", .timerFire 0,
              .message (.parsed (.obj [("success", .bool true),
                ("data", .num 7)]))]).timers.map Prod.fst)
       ∧ (0 ∉ pendingIds (runEvents 50 [.send "query monitors", .timerFire 0,
            .message (.parsed (.obj [("success", .bool true), ("data", .num 7)]))]) →
           settleCount (runEvents 50 [.send "query monitors", .timerFire 0,
              .message (.parsed (.obj [("success", .bool true),
                ("data", .num 7)]))]) 0 = 1)) :=
  ⟨by decide, c1_pending_request_exactly_once 50 [.send "query monitors", .timerFire 0,
      .message (.parsed (.obj [("success", .bool true), ("data", .num 7)]))] 0 (by decide)⟩

/-- **C2** — in every reachable state, `disconnect()` rejects every one of
the pending requests with the `"Connection closed"` error (one settlement per
entry, in table order), leaves the pending table empty, marks the client
disconnected, and is idempotent: a second `disconnect()` is a no-op on the
whole state — in particular the bulk cancellation also runs (vacuously) when
the client is already disconnected, so the table is empty after any call. -/
theorem c2_disconnect_rejects_all_pending :
    ∀ (t : Nat) (evs : List Ev),
      (step (runEvents t evs) .disconnect).pending = []
      ∧ (step (runEvents t evs) .disconnect).invocations
          = (runEvents t evs).invocations
            ++ (runEvents t evs).pending.map
                 (fun p => (p.1, Settlement.rejectedClosed "Connection closed"))
      ∧ (step (runEvents t evs) .disconnect).connected = false
      ∧ (step (runEvents t evs) .disconnect).hasWs = false
      ∧ step (step (runEvents t evs) .disconnect) .disconnect
          = step (runEvents t evs) .disconnect := by
  intro t evs
  have h := inv_runEvents t evs
  refine ⟨rfl, rfl, ?_, rfl, ?_⟩
  · show (if (runEvents t evs).hasWs then false else (runEvents t evs).connected) = false
    by_cases hws : (runEvents t evs).hasWs = true
    · rw [if_pos hws]
    · rw [if_neg hws]
      cases hcon : (runEvents t evs).connected
      · rfl
      · exact absurd (h.cw hcon).1 hws
  · exact step_disconnect_idle _ rfl rfl

/-- **C3** (counterexample to the claim as stated) — a command response
`{success:false, error:""}` carries an error field whose string is `""`, yet
the single outstanding request is rejected with the generic
`"Command failed"`, not with the response's error string: JavaScript `||`
falls back on every falsy error value, not only on an absent field. -/
theorem c3_counterexample :
    getField (.obj [("success", .bool false), ("error", .str "")]) "error"
        = some (.str "")
    ∧ (runEvents 50 [.send "query monitors",
        .message (.parsed (.obj [("success", .bool false), ("error", .str "")]))]).invocations
      = [(0, .rejectedCommandFailed "Command failed")]
    ∧ "Command failed" ≠ "" :=
  ⟨rfl, rfl, by decide⟩

/-- **C3** (amended) — when a frame decodes to an object with
`success = false` while exactly one request is outstanding, that request is
removed from the table and rejected with `cmdFailMsg`: the response's error
string whenever it is a non-empty (truthy) string, and the generic
`"Command failed"` fallback when the error field is absent (or falsy, as the
counterexample forces). -/
theorem c3_command_failed_rejection :
    ∀ (t : Nat) (evs : List Ev) (rid : Nat) (cmd : String) (j : JsVal),
      (runEvents t evs).pending = [(rid, cmd)] →
      getField j "success" = some (.bool false) →
      (step (runEvents t evs) (.message (.parsed j))).pending = []
      ∧ (step (runEvents t evs) (.message (.parsed j))).invocations
          = (runEvents t evs).invocations
            ++ [(rid, .rejectedCommandFailed (cmdFailMsg j))]
      ∧ (∀ e : String, getField j "error" = some (.str e) → e ≠ "" → cmdFailMsg j = e)
      ∧ (getField j "error" = none → cmdFailMsg j = "Command failed") := by
  intro t evs rid cmd j hp hsucc
  have h := inv_runEvents t evs
  obtain ⟨mpend, minv⟩ := single_pending_message (runEvents t evs) h rid cmd (.parsed j) hp
  have hsettle : respSettle (.parsed j) = .rejectedCommandFailed (cmdFailMsg j) := by
    simp [respSettle, jsGetD, hsucc, truthy]
  refine ⟨mpend, by rw [minv, hsettle], ?_, ?_⟩
  · intro e herr hne
    simp [cmdFailMsg, herr, truthy, hne, jsToDisplayString]
  · intro herr
    simp [cmdFailMsg, herr]

theorem c3_command_failed_rejection_witness :
    (runEvents 50 [.send "query monitors"]).pending = [(0, "query monitors")]
    ∧ getField (.obj [("success", .bool false), ("error", .str "X")]) "success"
        = some (.bool false)
    ∧ ((step (runEvents 50 [.send "query monitors"])
          (.message (.parsed (.obj [("success", .bool false),
            ("error", .str "X")])))).pending = []
       ∧ (step (runEvents 50 [.send "query monitors"])
            (.message (.parsed (.obj [("success", .bool false),
              ("error", .str "X")])))).invocations
          = (runEvents 50 [.send "query monitors"]).invocations
            ++ [(0, .rejectedCommandFailed
                  (cmdFailMsg (.obj [("success", .bool false), ("error", .str "X")])))]
       ∧ (∀ e : String,
            getField (.obj [("success", .bool false), ("error", .str "X")]) "error"
              = some (.str e) → e ≠ "" →
            cmdFailMsg (.obj [("success", .bool false), ("error", .str "X")]) = e)
       ∧ (getField (.obj [("success", .bool false), ("error", .str "X")]) "error" = none →
            cmdFailMsg (.obj [("success", .bool false), ("error", .str "X")])
              = "Command failed")) :=
  ⟨by decide, rfl,
    c3_command_failed_rejection 50 [.send "query monitors"] 0 "query monitors"
      (.obj [("success", .bool false), ("error", .str "X")]) (by decide) rfl⟩

/-- **C4** (counterexample to the claim as stated) — a frame that is not
parseable JSON, arriving while exactly one request is outstanding, completes
that request *successfully* with the raw frame text (`resolve(data.toString())`
in the catch branch), not as a failure: the recorded settlement is
`resolvedRaw`, which is not a rejection. -/
theorem c4_counterexample :
    (runEvents 50 [.send "query monitors", .message (.malformed "oops")]).invocations
      = [(0, .resolvedRaw "oops")]
    ∧ (Settlement.resolvedRaw "oops").isFailure = false :=
  ⟨rfl, rfl⟩

/-- **C4** (amended) — when an inbound frame fails JSON decoding while
exactly one request is outstanding, that request's table entry is removed and
the request is completed *successfully* with the raw frame text as fallback
resolution value (a `resolvedRaw` settlement, never a rejection). -/
theorem c4_parse_failure_resolves_raw :
    ∀ (t : Nat) (evs : List Ev) (rid : Nat) (cmd : String) (raw : String),
      (runEvents t evs).pending = [(rid, cmd)] →
      (step (runEvents t evs) (.message (.malformed raw))).pending = []
      ∧ (step (runEvents t evs) (.message (.malformed raw))).invocations
          = (runEvents t evs).invocations ++ [(rid, .resolvedRaw raw)]
      ∧ (Settlement.resolvedRaw raw).isFailure = false := by
  intro t evs rid cmd raw hp
  have h := inv_runEvents t evs
  obtain ⟨mpend, minv⟩ :=
    single_pending_message (runEvents t evs) h rid cmd (.malformed raw) hp
  exact ⟨mpend, minv, rfl⟩

theorem c4_parse_failure_resolves_raw_witness :
    (runEvents 50 [.send "query monitors"]).pending = [(0, "query monitors")]
    ∧ ((step (runEvents 50 [.send "query monitors"])
          (.message (.malformed "oops"))).pending = []
       ∧ (step (runEvents 50 [.send "query monitors"])
            (.message (.malformed "oops"))).invocations
          = (runEvents 50 [.send "query monitors"]).invocations
            ++ [(0, .resolvedRaw "oops")]
       ∧ (Settlement.resolvedRaw "oops").isFailure = false) :=
  ⟨by decide,
    c4_parse_failure_resolves_raw 50 [.send "query monitors"] 0 "query monitors" "oops"
      (by decide)⟩

/-- **C5** (counterexample to the claim as stated) — classification is by
JavaScript truthiness, not by field presence: the object
`{type:"focus_changed", data:0}` has both the `type` and the `data` field
present, yet `message.type && message.data` is falsy (`0`), so the
demultiplexer does *not* dispatch it as an event. -/
theorem c5_counterexample :
    (getField (.obj [("type", .str "focus_changed"), ("data", .num 0)]) "type").isSome
      = true
    ∧ (getField (.obj [("type", .str "focus_changed"), ("data", .num 0)]) "data").isSome
      = true
    ∧ isEventMessage (.obj [("type", .str "focus_changed"), ("data", .num 0)]) = false
    ∧ (step (initState 10000)
        (.message (.parsed (.obj [("type", .str "focus_changed"),
          ("data", .num 0)])))).eventsDispatched = [] :=
  ⟨rfl, rfl, rfl, rfl⟩

/-- **C5** (amended) — for a successfully decoded object arriving on an open
socket, the demultiplexer forwards it to the event dispatcher if and only if
both the `type` field and the `data` field are present *with truthy values*;
any other decoded object leaves the dispatched-event log unchanged (it is
treated as a command response). -/
theorem c5_event_classification :
    ∀ (s : ClientState) (j : JsVal), s.hasWs = true → s.wsOpen = true →
      (((step s (.message (.parsed j))).eventsDispatched
          = s.eventsDispatched ++ [(jsGetD j "type", jsGetD j "data")])
        ↔ isEventMessage j = true)
      ∧ (((step s (.message (.parsed j))).eventsDispatched = s.eventsDispatched)
        ↔ isEventMessage j = false)
      ∧ (isEventMessage j = true
        ↔ ((∃ v, getField j "type" = some v ∧ truthy v = true)
           ∧ (∃ w, getField j "data" = some w ∧ truthy w = true))) := by
  intro s j hws hop
  have hg : (s.hasWs && s.wsOpen) = true := by
    rw [hws, hop]
    rfl
  have hstep : (step s (.message (.parsed j))).eventsDispatched
      = (handleMsg s (.parsed j)).eventsDispatched := by
    show (if s.hasWs && s.wsOpen then
        (handleMsg s (.parsed j)).listeners.foldl (runHandler (.parsed j))
          (handleMsg s (.parsed j)) else s).eventsDispatched = _
    rw [if_pos hg, foldl_runHandler_eventsDispatched]
  have hne : s.eventsDispatched ++ [(jsGetD j "type", jsGetD j "data")]
      ≠ s.eventsDispatched := by
    intro hcontra
    have := congrArg List.length hcontra
    simp at this
  refine ⟨?_, ?_, ?_⟩
  · rw [hstep]
    by_cases hj : isEventMessage j = true
    · simp [handleMsg, hj]
    · rw [show handleMsg s (.parsed j) = s from by simp [handleMsg, hj]]
      constructor
      · intro hcontra
        exact absurd hcontra.symm hne
      · intro htrue
        exact absurd htrue hj
  · rw [hstep]
    by_cases hj : isEventMessage j = true
    · rw [show (handleMsg s (.parsed j)).eventsDispatched
          = s.eventsDispatched ++ [(jsGetD j "type", jsGetD j "data")] from by
        simp [handleMsg, hj]]
      simp [hj, hne]
    · rw [show handleMsg s (.parsed j) = s from by simp [handleMsg, hj]]
      simp [hj]
  · rw [isEventMessage, Bool.and_eq_true]
    rw [truthy_jsGetD_iff j "type", truthy_jsGetD_iff j "data"]

theorem c5_event_classification_witness :
    (initState 10000).hasWs = true ∧ (initState 10000).wsOpen = true
    ∧ ((((step (initState 10000) (.message (.parsed (.obj [("type", .str "focus_changed"),
            ("data", .obj [("focusedContainer", .str "w1")])])))).eventsDispatched
          = (initState 10000).eventsDispatched
            ++ [(jsGetD (.obj [("type", .str "focus_changed"),
                  ("data", .obj [("focusedContainer", .str "w1")])]) "type",
                 jsGetD (.obj [("type", .str "focus_changed"),
                  ("data", .obj [("focusedContainer", .str "w1")])]) "data")])
        ↔ isEventMessage (.obj [("type", .str "focus_changed"),
            ("data", .obj [("focusedContainer", .str "w1")])]) = true)
      ∧ (((step (initState 10000) (.message (.parsed (.obj [("type", .str "focus_changed"),
            ("data", .obj [("focusedContainer", .str "w1")])])))).eventsDispatched
          = (initState 10000).eventsDispatched)
        ↔ isEventMessage (.obj [("type", .str "focus_changed"),
            ("data", .obj [("focusedContainer", .str "w1")])]) = false)
      ∧ (isEventMessage (.obj [("type", .str "focus_changed"),
            ("data", .obj [("focusedContainer", .str "w1")])]) = true
        ↔ ((∃ v, getField (.obj [("type", .str "focus_changed"),
              ("data", .obj [("focusedContainer", .str "w1")])]) "type" = some v
              ∧ truthy v = true)
           ∧ (∃ w, getField (.obj [("type", .str "focus_changed"),
              ("data", .obj [("focusedContainer", .str "w1")])]) "data" = some w
              ∧ truthy w = true)))) :=
  ⟨rfl, rfl,
    c5_event_classification (initState 10000)
      (.obj [("type", .str "focus_changed"),
        ("data", .obj [("focusedContainer", .str "w1")])]) rfl rfl⟩

/-- **C6** — for every dispatched event, every currently subscribed handler
of that kind is invoked exactly once, in subscriber registration order (the
invocation list is exactly the stored handler list, in order, each paired
with the one event object), and this holds for *every* throwing behaviour of
the handlers: `emitEvent` is a total function whose invocation list does not
depend on `throws`, a handler's exception being caught (returned in the
logged second component) instead of stopping later handlers or propagating.
Registration order is append order: `subscribe` appends to the stored
list. -/
theorem c6_dispatch_in_order_guarded :
    ∀ (subs : Subs) (throws : Nat → Bool) (kind : String) (data : JsVal) (now : Int),
      (emitEvent subs throws kind data now).1
          = (handlersOf subs kind).map (fun h => (h, buildEvent kind now data))
      ∧ (emitEvent subs throws kind data now).2 = (handlersOf subs kind).filter throws
      ∧ (∀ h : Nat, handlersOf (subscribe subs kind h) kind
          = handlersOf subs kind ++ [h]) := by
  intro subs throws kind data now
  exact ⟨emitEvent_fst subs throws kind data now, emitEvent_snd subs throws kind data now,
    fun h => handlersOf_subscribe subs kind h⟩

/-- **C7** — when the handler is not already subscribed for the kind,
`unsubscribe` after `subscribe` yields zero deliveries to that (kind,
handler) pair, and `unsubscribe` on a state not containing the handler is a
complete no-op; in general `unsubscribe` removes exactly the first matching
entry of the kind's handler list, and after `unsubscribeAll` every kind has
zero deliveries. -/
theorem c7_unsubscribe_zero_deliveries :
    ∀ (subs : Subs) (kind : String) (h : Nat) (throws : Nat → Bool)
      (data : JsVal) (now : Int),
      (h ∉ handlersOf subs kind →
        ((emitEvent (unsubscribe (subscribe subs kind h) kind h) throws kind data now).1.filter
            (fun e => decide (e.1 = h)) = []
         ∧ unsubscribe subs kind h = subs))
      ∧ handlersOf (unsubscribe subs kind h) kind = (handlersOf subs kind).erase h
      ∧ (∀ k2 : String, (emitEvent (unsubscribeAll subs) throws k2 data now).1 = []) := by
  intro subs kind h throws data now
  refine ⟨?_, ?_, ?_⟩
  · intro hout
    constructor
    · have hsub : handlersOf (subscribe subs kind h) kind = handlersOf subs kind ++ [h] :=
        handlersOf_subscribe subs kind h
      have hfind : (subscribe subs kind h).find? (fun e => decide (e.1 = kind))
          = some (kind, handlersOf subs kind ++ [h]) := by
        rw [subscribe]
        exact find?_setHandlers subs kind (handlersOf subs kind ++ [h])
      have hmem : h ∈ handlersOf subs kind ++ [h] := by simp
      have herase : (handlersOf subs kind ++ [h]).erase h = handlersOf subs kind := by
        rw [List.erase_append_right _ hout]
        simp
      have huns : unsubscribe (subscribe subs kind h) kind h
          = setHandlers (subscribe subs kind h) kind (handlersOf subs kind) := by
        rw [unsubscribe, hfind]
        simp only [hmem, if_pos]
        rw [herase]
      rw [huns, emitEvent_fst, handlersOf_setHandlers, List.filter_eq_nil_iff]
      intro e he
      rcases List.mem_map.mp he with ⟨x, hx, hxe⟩
      subst hxe
      simp only [decide_eq_true_eq]
      intro hxh
      exact hout (hxh ▸ hx)
    · cases hfind : subs.find? (fun e => decide (e.1 = kind)) with
      | none =>
          show (match subs.find? (fun e => decide (e.1 = kind)) with
            | none => subs
            | some e => if h ∈ e.2 then setHandlers subs kind (e.2.erase h) else subs) = subs
          rw [hfind]
      | some e0 =>
          have hh : handlersOf subs kind = e0.2 := by
            rw [handlersOf, hfind]
          show (match subs.find? (fun e => decide (e.1 = kind)) with
            | none => subs
            | some e => if h ∈ e.2 then setHandlers subs kind (e.2.erase h) else subs) = subs
          rw [hfind]
          show (if h ∈ e0.2 then setHandlers subs kind (e0.2.erase h) else subs) = subs
          rw [if_neg (by rw [← hh]; exact hout)]
  · cases hfind : subs.find? (fun e => decide (e.1 = kind)) with
    | none =>
        have hun : unsubscribe subs kind h = subs := by
          show (match subs.find? (fun e => decide (e.1 = kind)) with
            | none => subs
            | some e => if h ∈ e.2 then setHandlers subs kind (e.2.erase h) else subs) = subs
          rw [hfind]
        have hho : handlersOf subs kind = [] := by
          rw [handlersOf, hfind]
        rw [hun, hho]
        rfl
    | some e0 =>
        have hho : handlersOf subs kind = e0.2 := by
          rw [handlersOf, hfind]
        by_cases hm : h ∈ e0.2
        · have hun : unsubscribe subs kind h = setHandlers subs kind (e0.2.erase h) := by
            show (match subs.find? (fun e => decide (e.1 = kind)) with
              | none => subs
              | some e => if h ∈ e.2 then setHandlers subs kind (e.2.erase h) else subs)
              = setHandlers subs kind (e0.2.erase h)
            rw [hfind]
            show (if h ∈ e0.2 then setHandlers subs kind (e0.2.erase h) else subs)
              = setHandlers subs kind (e0.2.erase h)
            rw [if_pos hm]
          rw [hun, handlersOf_setHandlers, hho]
        · have hun : unsubscribe subs kind h = subs := by
            show (match subs.find? (fun e => decide (e.1 = kind)) with
              | none => subs
              | some e => if h ∈ e.2 then setHandlers subs kind (e.2.erase h) else subs)
              = subs
            rw [hfind]
            show (if h ∈ e0.2 then setHandlers subs kind (e0.2.erase h) else subs) = subs
            rw [if_neg hm]
          rw [hun, hho, List.erase_of_not_mem hm]
  · intro k2
    rw [emitEvent_fst]
    rfl

theorem c7_unsubscribe_zero_deliveries_witness :
    (7 ∉ handlersOf [("focus_changed", [3])] "focus_changed")
    ∧ ((7 ∉ handlersOf [("focus_changed", [3])] "focus_changed" →
        ((emitEvent (unsubscribe (subscribe [("focus_changed", [3])] "focus_changed" 7)
              "focus_changed" 7) (fun _ => false) "focus_changed" (.obj []) 5).1.filter
            (fun e => decide (e.1 = 7)) = []
         ∧ unsubscribe [("focus_changed", [3])] "focus_changed" 7
            = [("focus_changed", [3])]))
       ∧ handlersOf (unsubscribe [("focus_changed", [3])] "focus_changed" 7) "focus_changed"
          = (handlersOf [("focus_changed", [3])] "focus_changed").erase 7
       ∧ (∀ k2 : String,
          (emitEvent (unsubscribeAll [("focus_changed", [3])]) (fun _ => false) k2
            (.obj []) 5).1 = [])) :=
  ⟨by decide,
    c7_unsubscribe_zero_deliveries [("focus_changed", [3])] "focus_changed" 7
      (fun _ => false) (.obj []) 5⟩

/-- **C8** — in every reachable state, firing the armed timeout timer of
request `id` (command text `cmd`) removes the entry from the pending table
and from the armed timers, and rejects the request with the `RequestTimeout`
error whose message is `"Request timeout after <timeoutMs>ms: <cmd>"` — a
message that literally ends with the original command text, e.g. a timed-out
`queryMonitors()` rejects with a message mentioning `"query monitors"`. -/
theorem c8_timeout_rejects_with_command :
    ∀ (t : Nat) (evs : List Ev) (id : Nat) (cmd : String),
      (id, cmd) ∈ (runEvents t evs).timers →
      id ∉ pendingIds (step (runEvents t evs) (.timerFire id))
      ∧ id ∉ (step (runEvents t evs) (.timerFire id)).timers.map Prod.fst
      ∧ (step (runEvents t evs) (.timerFire id)).invocations
          = (runEvents t evs).invocations
            ++ [(id, .rejectedTimeout ("Request timeout after "
                  ++ toString (runEvents t evs).timeoutMs ++ "ms: " ++ cmd))] := by
  intro t evs id cmd hmem
  have h := inv_runEvents t evs
  have hndt : ((runEvents t evs).timers.map Prod.fst).Nodup := by
    rw [h.te]
    exact h.nd
  have hfind : (runEvents t evs).timers.find? (fun t2 => decide (t2.1 = id))
      = some (id, cmd) := find?_fst_eq _ id cmd hndt hmem
  have hpmem : (id, cmd) ∈ (runEvents t evs).pending := h.te ▸ hmem
  have hconn := h.pc (by
    intro hnil
    rw [hnil] at hpmem
    cases hpmem)
  have hws := (h.cw hconn).1
  have hstep : step (runEvents t evs) (.timerFire id)
      = { (runEvents t evs) with
          listeners := (runEvents t evs).listeners.erase id
          timers := (runEvents t evs).timers.filter (fun t2 => decide (t2.1 ≠ id))
          pending := (runEvents t evs).pending.filter (fun p => decide (p.1 ≠ id))
          invocations := (runEvents t evs).invocations
            ++ [(id, Settlement.rejectedTimeout
                  (timeoutMsg (runEvents t evs).timeoutMs cmd))] } := by
    simp only [step]
    rw [hfind]
    simp [hws]
  rw [hstep]
  refine ⟨?_, ?_, rfl⟩
  · show id ∉
      ((runEvents t evs).pending.filter (fun p => decide (p.1 ≠ id))).map Prod.fst
    rw [mem_map_fst_filter ((runEvents t evs).pending) (fun x => decide (x ≠ id)) id]
    simp
  · show id ∉
      ((runEvents t evs).timers.filter (fun t2 => decide (t2.1 ≠ id))).map Prod.fst
    rw [mem_map_fst_filter ((runEvents t evs).timers) (fun x => decide (x ≠ id)) id]
    simp

theorem c8_timeout_rejects_with_command_witness :
    (0, "query monitors") ∈ (runEvents 50 [.send "query monitors"]).timers
    ∧ (0 ∉ pendingIds (step (runEvents 50 [.send "query monitors"]) (.timerFire 0))
       ∧ 0 ∉ (step (runEvents 50 [.send "query monitors"]) (.timerFire 0)).timers.map
          Prod.fst
       ∧ (step (runEvents 50 [.send "query monitors"]) (.timerFire 0)).invocations
          = (runEvents 50 [.send "query monitors"]).invocations
            ++ [(0, .rejectedTimeout ("Request timeout after "
                  ++ toString (runEvents 50 [.send "query monitors"]).timeoutMs
                  ++ "ms: " ++ "query monitors"))]) :=
  ⟨by decide,
    c8_timeout_rejects_with_command 50 [.send "query monitors"] 0 "query monitors"
      (by decide)⟩

/-- **C9** — every request-issuing operation (`queryMonitors`,
`queryWorkspaces`, `queryWindows`, `queryFocused`, `runCommand`, and the
underlying `sendRequest`) invoked when `!this.ws || !this.connected` fails
with the `"Not connected to GlazeWM IPC"` error, and the failure is atomic:
the returned state is the input state unchanged, so nothing is sent on the
transport (`sentFrames` unchanged) and no entry is added to the pending
table. -/
theorem c9_not_connected_rejects_atomically :
    ∀ (s : ClientState) (cmd : String) (subject : Option String),
      (s.hasWs && s.connected) = false →
      sendRequest s cmd = (s, Except.error "Not connected to GlazeWM IPC")
      ∧ queryMonitors s = (s, Except.error "Not connected to GlazeWM IPC")
      ∧ queryWorkspaces s = (s, Except.error "Not connected to GlazeWM IPC")
      ∧ queryWindows s = (s, Except.error "Not connected to GlazeWM IPC")
      ∧ queryFocused s = (s, Except.error "Not connected to GlazeWM IPC")
      ∧ runCommand s cmd subject = (s, Except.error "Not connected to GlazeWM IPC") := by
  intro s cmd subject hg
  have hsend : ∀ c : String,
      sendRequest s c = (s, Except.error "Not connected to GlazeWM IPC") := by
    intro c
    unfold sendRequest
    rw [if_neg (by rw [hg]; decide)]
  exact ⟨hsend cmd, hsend _, hsend _, hsend _, hsend _, hsend _⟩

theorem c9_not_connected_rejects_atomically_witness :
    (({ initState 10000 with connected := false } : ClientState).hasWs
      && ({ initState 10000 with connected := false } : ClientState).connected) = false
    ∧ (sendRequest { initState 10000 with connected := false } "focus --direction left"
        = ({ initState 10000 with connected := false },
           Except.error "Not connected to GlazeWM IPC")
       ∧ queryMonitors { initState 10000 with connected := false }
        = ({ initState 10000 with connected := false },
           Except.error "Not connected to GlazeWM IPC")
       ∧ queryWorkspaces { initState 10000 with connected := false }
        = ({ initState 10000 with connected := false },
           Except.error "Not connected to GlazeWM IPC")
       ∧ queryWindows { initState 10000 with connected := false }
        = ({ initState 10000 with connected := false },
           Except.error "Not connected to GlazeWM IPC")
       ∧ queryFocused { initState 10000 with connected := false }
        = ({ initState 10000 with connected := false },
           Except.error "Not connected to GlazeWM IPC")
       ∧ runCommand { initState 10000 with connected := false } "focus --direction left"
          none
        = ({ initState 10000 with connected := false },
           Except.error "Not connected to GlazeWM IPC")) :=
  ⟨by decide,
    c9_not_connected_rejects_atomically { initState 10000 with connected := false }
      "focus --direction left" none (by decide)⟩

/-- **C10** — the delivered event object is
`{ type: kind, timestamp: now, ...data }`: the spread of the payload's own
fields comes last, so whenever the payload itself contains a `type` or a
`timestamp` field, the payload's value is what subscribers observe under
that key; the dispatcher-supplied kind tag and capture timestamp survive
only when the payload lacks the respective field. -/
theorem c10_payload_overwrites_tags :
    ∀ (kind : String) (now : Int) (fs : List (String × JsVal)),
      (fs.map Prod.fst).Nodup →
      (∀ v, getFieldL fs "type" = some v →
        getFieldL (buildEvent kind now (.obj fs)) "type" = some v)
      ∧ (∀ v, getFieldL fs "timestamp" = some v →
        getFieldL (buildEvent kind now (.obj fs)) "timestamp" = some v)
      ∧ (getFieldL fs "type" = none →
        getFieldL (buildEvent kind now (.obj fs)) "type" = some (.str kind))
      ∧ (getFieldL fs "timestamp" = none →
        getFieldL (buildEvent kind now (.obj fs)) "timestamp" = some (.num now)) := by
  intro kind now fs hnd
  have hbe : buildEvent kind now (.obj fs)
      = fs.foldl (fun o kv => setField o kv.1 kv.2)
          [("type", JsVal.str kind), ("timestamp", JsVal.num now)] := rfl
  refine ⟨?_, ?_, ?_, ?_⟩
  · intro v hv
    rw [hbe, getFieldL_foldl_setField fs _ "type" hnd, hv]
  · intro v hv
    rw [hbe, getFieldL_foldl_setField fs _ "timestamp" hnd, hv]
  · intro hn
    rw [hbe, getFieldL_foldl_setField fs _ "type" hnd, hn]
    simp [getFieldL]
  · intro hn
    rw [hbe, getFieldL_foldl_setField fs _ "timestamp" hnd, hn]
    simp [getFieldL]

theorem c10_payload_overwrites_tags_witness :
    (([("type", JsVal.str "T"), ("focusedContainer", JsVal.null)].map Prod.fst).Nodup)
    ∧ ((∀ v, getFieldL [("type", JsVal.str "T"), ("focusedContainer", JsVal.null)] "type"
          = some v →
        getFieldL (buildEvent "focus_changed" 99
          (.obj [("type", JsVal.str "T"), ("focusedContainer", JsVal.null)])) "type"
          = some v)
      ∧ (∀ v, getFieldL [("type", JsVal.str "T"), ("focusedContainer", JsVal.null)]
          "timestamp" = some v →
        getFieldL (buildEvent "focus_changed" 99
          (.obj [("type", JsVal.str "T"), ("focusedContainer", JsVal.null)])) "timestamp"
          = some v)
      ∧ (getFieldL [("type", JsVal.str "T"), ("focusedContainer", JsVal.null)] "type"
          = none →
        getFieldL (buildEvent "focus_changed" 99
          (.obj [("type", JsVal.str "T"), ("focusedContainer", JsVal.null)])) "type"
          = some (.str "focus_changed"))
      ∧ (getFieldL [("type", JsVal.str "T"), ("focusedContainer", JsVal.null)] "timestamp"
          = none →
        getFieldL (buildEvent "focus_changed" 99
          (.obj [("type", JsVal.str "T"), ("focusedContainer", JsVal.null)])) "timestamp"
          = some (.num 99))) :=
  ⟨by decide,
    c10_payload_overwrites_tags "focus_changed" 99
      [("type", JsVal.str "T"), ("focusedContainer", JsVal.null)] (by decide)⟩
